import Mathlib

/-!
Verification of the creator-scraper orchestration core.

Shallow embedding of the rate limiter (`utils/rate_limiter.py`), the
Instagram scrape protocol (`sources/instagram.py`), the Reels discovery
loop (`sources/instagram_discovery.py`), the engagement-rate derivations
(`utils/parsers.py`, `models/schemas.py`) and the batch orchestration
layers (`run_scraper.py`, `tasks/worker.py`), together with proofs of the
behavioural properties stated in the specification.

Python floats are modelled as rationals; wall-clock timestamps are passed
in explicitly as elapsed times.
-/

namespace CreatorScraper

/-- Token-bucket rate limiter state (`RateLimiter` in
`utils/rate_limiter.py`).  `rate` is tokens per second, `capacity` the
maximum bucket size, `tokens` the current balance (a Python float,
modelled as a rational). -/
structure RateLimiter where
  rate : ℚ
  capacity : ℚ
  tokens : ℚ
deriving Repr, DecidableEq

/-- Constructor `RateLimiter.__init__`: the bucket starts full
(`self.tokens = capacity`). -/
def RateLimiter.init (rate : ℚ) (capacity : ℚ) : RateLimiter :=
  { rate := rate, capacity := capacity, tokens := capacity }

/-- Python's builtin `min` on two rationals, kept as an executable `if` so
that concrete runs evaluate by kernel reduction. -/
def pymin (a b : ℚ) : ℚ := if a ≤ b then a else b

theorem pymin_eq_min (a b : ℚ) : pymin a b = min a b := by
  simp [pymin, min_def]

/-- One `acquire(tokens=n)` call.  `elapsed` is `now - self.last_update`.
The bucket first refills `tokens = min(capacity, tokens + elapsed * rate)`
and then spends `n` tokens when `tokens >= n`, returning the success flag
and the updated limiter. -/
def RateLimiter.acquire (rl : RateLimiter) (elapsed : ℚ) (n : ℚ) :
    Bool × RateLimiter :=
  if n ≤ pymin rl.capacity (rl.tokens + elapsed * rl.rate) then
    (true, { rl with
      tokens := pymin rl.capacity (rl.tokens + elapsed * rl.rate) - n })
  else
    (false, { rl with
      tokens := pymin rl.capacity (rl.tokens + elapsed * rl.rate) })

/-- Run a finite sequence of `acquire` calls; each list entry carries the
elapsed time since the previous update and the requested token count. -/
def RateLimiter.runAcquires (rl : RateLimiter) : List (ℚ × ℚ) → RateLimiter
  | [] => rl
  | (e, n) :: rest => ((rl.acquire e n).2).runAcquires rest

/-- Like `runAcquires` but also collecting each call's success flag. -/
def RateLimiter.runAcquiresResults (rl : RateLimiter) :
    List (ℚ × ℚ) → List Bool × RateLimiter
  | [] => ([], rl)
  | (e, n) :: rest =>
    let step := rl.acquire e n
    let tail := (step.2).runAcquiresResults rest
    (step.1 :: tail.1, tail.2)

/-- The sleep computed by `wait_for_tokens` after a failed `acquire`:
`(tokens_requested - self.tokens) / self.rate`. -/
def RateLimiter.waitTime (rl : RateLimiter) (n : ℚ) : ℚ :=
  (n - rl.tokens) / rl.rate

theorem RateLimiter.acquire_rate (rl : RateLimiter) (e n : ℚ) :
    ((rl.acquire e n).2).rate = rl.rate := by
  unfold RateLimiter.acquire
  split <;> rfl

theorem RateLimiter.acquire_capacity (rl : RateLimiter) (e n : ℚ) :
    ((rl.acquire e n).2).capacity = rl.capacity := by
  unfold RateLimiter.acquire
  split <;> rfl

theorem RateLimiter.acquire_tokens_bounds (rl : RateLimiter) (e n : ℚ)
    (hr : 0 ≤ rl.rate) (hc : 0 ≤ rl.capacity) (he : 0 ≤ e) (hn : 1 ≤ n)
    (h0 : 0 ≤ rl.tokens) :
    0 ≤ ((rl.acquire e n).2).tokens ∧
      ((rl.acquire e n).2).tokens ≤ rl.capacity := by
  have hre : 0 ≤ e * rl.rate := mul_nonneg he hr
  have hlow : (0 : ℚ) ≤ min rl.capacity (rl.tokens + e * rl.rate) :=
    le_min hc (by linarith)
  have hhigh : min rl.capacity (rl.tokens + e * rl.rate) ≤ rl.capacity :=
    min_le_left _ _
  simp only [RateLimiter.acquire, pymin_eq_min]
  split
  case isTrue h =>
    constructor
    · simp only
      linarith
    · simp only
      linarith
  case isFalse h =>
    exact ⟨hlow, hhigh⟩

theorem RateLimiter.runAcquires_bounds (calls : List (ℚ × ℚ)) :
    ∀ rl : RateLimiter, 0 ≤ rl.rate → 0 ≤ rl.capacity →
      0 ≤ rl.tokens → rl.tokens ≤ rl.capacity →
      (∀ p ∈ calls, 0 ≤ p.1 ∧ 1 ≤ p.2) →
      (0 ≤ (rl.runAcquires calls).tokens ∧
        (rl.runAcquires calls).tokens ≤ rl.capacity) ∧
        (rl.runAcquires calls).capacity = rl.capacity ∧
        (rl.runAcquires calls).rate = rl.rate := by
  induction calls with
  | nil =>
    intro rl hr hc h0 h1 _
    exact ⟨⟨h0, h1⟩, rfl, rfl⟩
  | cons p rest ih =>
    intro rl hr hc h0 h1 hcalls
    obtain ⟨e, n⟩ := p
    have hp := hcalls (e, n) (List.mem_cons_self _ _)
    have hb := rl.acquire_tokens_bounds e n hr hc hp.1 hp.2 h0
    have hcap := rl.acquire_capacity e n
    have hrate := rl.acquire_rate e n
    have ih' := ih ((rl.acquire e n).2) (by rw [hrate]; exact hr)
      (by rw [hcap]; exact hc) hb.1 (by rw [hcap]; exact hb.2)
      (fun q hq => hcalls q (List.mem_cons_of_mem _ hq))
    refine ⟨⟨ih'.1.1, ?_⟩, ?_, ?_⟩
    · have := ih'.1.2
      rw [hcap] at this
      simpa [RateLimiter.runAcquires] using this
    · simpa [RateLimiter.runAcquires, hcap] using ih'.2.1
    · simpa [RateLimiter.runAcquires, hrate] using ih'.2.2

/-- C1: for every rate limiter with nonnegative rate and capacity whose
token balance starts within `[0, capacity]`, and every finite sequence of
`acquire(n)` calls with nonnegative elapsed times and `n ≥ 1`, the token
balance stays within `[0, capacity]` after each call (every run over a
`List.take` of the call sequence): the refill never pushes it above
`capacity` and a successful acquire never drives it below zero. -/
theorem C1_rate_limiter_tokens_within_bounds
    (rl : RateLimiter) (calls : List (ℚ × ℚ)) (k : ℕ)
    (hr : 0 ≤ rl.rate) (hc : 0 ≤ rl.capacity)
    (h0 : 0 ≤ rl.tokens) (h1 : rl.tokens ≤ rl.capacity)
    (hcalls : ∀ p ∈ calls, 0 ≤ p.1 ∧ 1 ≤ p.2) :
    0 ≤ (rl.runAcquires (calls.take k)).tokens ∧
      (rl.runAcquires (calls.take k)).tokens ≤ rl.capacity :=
  (RateLimiter.runAcquires_bounds (calls.take k) rl hr hc h0 h1
    (fun p hp => hcalls p (List.mem_of_mem_take hp))).1

/-- Witness for C1 at a concrete limiter and call sequence. -/
theorem C1_witness :
    0 ≤ ((RateLimiter.init (1/2) 5).runAcquires
        ([((0 : ℚ), (1 : ℚ)), (2, 1), (0, 3)].take 3)).tokens ∧
      ((RateLimiter.init (1/2) 5).runAcquires
        ([((0 : ℚ), (1 : ℚ)), (2, 1), (0, 3)].take 3)).tokens ≤
        (RateLimiter.init (1/2) 5).capacity :=
  C1_rate_limiter_tokens_within_bounds (RateLimiter.init (1/2) 5)
    [((0 : ℚ), (1 : ℚ)), (2, 1), (0, 3)] 3
    (by norm_num [RateLimiter.init]) (by norm_num [RateLimiter.init])
    (by norm_num [RateLimiter.init]) (by norm_num [RateLimiter.init])
    (by decide)

/-- The limiter of the C7 scenario: `capacity=10`, `refillRate=10/3600`,
starting full. -/
def c7Bucket : RateLimiter := RateLimiter.init (10/3600) 10

/-- C7: starting from a full bucket with `capacity=10` and
`refillRate=10/3600`, ten immediate `acquire(1)` calls all succeed, an
eleventh with no elapsed time fails, the wait computed by
`wait_for_tokens(1)` immediately afterwards equals `1/refillRate = 360`
seconds, and in general the computed wait `(n - tokens)/refillRate` after
a failed acquire is never negative when the rate is positive. -/
theorem C7_burst_then_rate_limited :
    (c7Bucket.runAcquiresResults (List.replicate 11 ((0 : ℚ), (1 : ℚ)))).1 =
        List.replicate 10 true ++ [false] ∧
      (c7Bucket.runAcquiresResults
          (List.replicate 11 ((0 : ℚ), (1 : ℚ)))).2.waitTime 1 =
        1 / c7Bucket.rate ∧
      (1 : ℚ) / c7Bucket.rate = 360 ∧
      (∀ (rl : RateLimiter) (e n : ℚ), 0 < rl.rate →
        (rl.acquire e n).1 = false → 0 ≤ ((rl.acquire e n).2).waitTime n) := by
  refine ⟨?_, ?_, ?_, ?_⟩
  · norm_num [c7Bucket, RateLimiter.init, RateLimiter.runAcquiresResults,
      RateLimiter.acquire, pymin, List.replicate]
  · norm_num [c7Bucket, RateLimiter.init, RateLimiter.runAcquiresResults,
      RateLimiter.acquire, RateLimiter.waitTime, pymin, List.replicate]
  · norm_num [c7Bucket, RateLimiter.init]
  intro rl e n hrate hfail
  unfold RateLimiter.acquire at hfail ⊢
  by_cases h : n ≤ pymin rl.capacity (rl.tokens + e * rl.rate)
  · simp [h] at hfail
  · simp only [h, if_false]
    unfold RateLimiter.waitTime
    dsimp only
    push_neg at h
    have hnum : 0 ≤ n - pymin rl.capacity (rl.tokens + e * rl.rate) := by
      linarith
    exact div_nonneg hnum (le_of_lt hrate)

/-- Witness applying the final (hypothesis-bearing) conjunct of C7 at the
concrete drained bucket: the computed wait is nonnegative there. -/
theorem C7_witness :
    0 ≤ ((({ rate := 10/3600, capacity := 10,
              tokens := 0 } : RateLimiter).acquire 0 1).2).waitTime 1 :=
  C7_burst_then_rate_limited.2.2.2
    { rate := 10/3600, capacity := 10, tokens := 0 } 0 1
    (by norm_num) (by norm_num [RateLimiter.acquire, pymin])

/-! ## Scrape protocol (`sources/instagram.py`) -/

/-- The literal `"instagram.com/"` that `_extract_handle` searches for. -/
def igMarker : List Char := "instagram.com/".toList

/-- The capture `([^/?]+)` of `_extract_handle`'s regex: the run of
characters up to the next `/` or `?`. -/
def takeHandleChars : List Char → List Char
  | [] => []
  | c :: cs => if c == '/' || c == '?' then [] else c :: takeHandleChars cs

/-- Models `re.search(r'instagram\.com/([^/?]+)', url)`: the leftmost
position where the literal marker is followed by a nonempty capture.  The
preceding `'instagram.com/' in profile_url` check is subsumed (when no
position matches the result is `None` either way), and the trailing
`.strip('/')` is the identity because the capture cannot contain `/`. -/
def findHandle : List Char → Option (List Char)
  | [] => none
  | c :: cs =>
    if igMarker.isPrefixOf (c :: cs) then
      if (takeHandleChars ((c :: cs).drop igMarker.length)).isEmpty then
        findHandle cs
      else some (takeHandleChars ((c :: cs).drop igMarker.length))
    else findHandle cs

/-- Function `InstagramScraper._extract_handle`. -/
def extractHandle (url : String) : Option String :=
  (findHandle url.toList).map fun cs => String.mk cs

/-- Network and rate-budget actions performed during `scrape_profile`,
recorded in order. -/
inductive ScrapeAction
  | rateWait (platform method : String)
  | apiGetUserId
  | apiGetProfile
  | apiGetMedia
  | pageExtraction
deriving DecidableEq, Repr

/-- Whether an action belongs to the API path (an API sub-call). -/
def ScrapeAction.isApi : ScrapeAction → Bool
  | apiGetUserId => true
  | apiGetProfile => true
  | apiGetMedia => true
  | _ => false

/-- Result of a scraping operation (`ScrapingResult` in
`models/schemas.py`, restricted to the fields the claims inspect). -/
structure ScrapingResult where
  success : Bool
  method_used : String
  error : Option String
deriving DecidableEq, Repr

/-- Environment of one `scrape_profile` call: whether API credentials are
configured (`self.access_token` is truthy) and the responses of the
external API and page controller.  `user_id` models the `_get_user_id`
response, `profile_data_ok` whether `_get_user_profile` returned data
(`none`/`false` cover both an exception and a missing field), and
`page_extraction_ok` whether `_extract_profile_data` produced data
(`false` covers both a raised error and an empty extraction). -/
structure ScrapeEnv where
  has_access_token : Bool
  user_id : Option String
  profile_data_ok : Bool
  page_extraction_ok : Bool
deriving DecidableEq, Repr

/-- Method `InstagramScraper._scrape_via_api`, returning the result
together with the trace of rate-budget waits and API sub-calls it
performs.  The profile construction from returned API data always
succeeds, so a run past `_get_user_profile` is a success. -/
def scrapeViaApi (env : ScrapeEnv) : ScrapingResult × List ScrapeAction :=
  match env.user_id with
  | none =>
    (⟨false, "api", some "Could not get user ID from API"⟩,
      [.rateWait "instagram" "api", .apiGetUserId])
  | some _ =>
    if env.profile_data_ok then
      (⟨true, "api", none⟩,
        [.rateWait "instagram" "api", .apiGetUserId, .apiGetProfile,
          .apiGetMedia])
    else
      (⟨false, "api", some "Could not get profile data from API"⟩,
        [.rateWait "instagram" "api", .apiGetUserId, .apiGetProfile])

/-- Method `InstagramScraper._scrape_via_playwright`: one rate-budget wait
and one page-extraction attempt. -/
def scrapeViaPlaywright (env : ScrapeEnv) :
    ScrapingResult × List ScrapeAction :=
  if env.page_extraction_ok then
    (⟨true, "scraping", none⟩,
      [.rateWait "instagram" "scraping", .pageExtraction])
  else
    (⟨false, "scraping", some "Could not extract profile data"⟩,
      [.rateWait "instagram" "scraping", .pageExtraction])

/-- Method `InstagramScraper.scrape_profile`: extract the handle, try the
API path when requested and credentialed, and fall back to Playwright
page extraction when the API path is skipped or fails. -/
def scrape_profile (env : ScrapeEnv) (profile_url : String)
    (use_api : Bool) : ScrapingResult × List ScrapeAction :=
  match extractHandle profile_url with
  | none => (⟨false, "none", some "Invalid Instagram profile URL"⟩, [])
  | some _ =>
    if use_api && env.has_access_token then
      if (scrapeViaApi env).1.success then scrapeViaApi env
      else
        ((scrapeViaPlaywright env).1,
          (scrapeViaApi env).2 ++ (scrapeViaPlaywright env).2)
    else scrapeViaPlaywright env

/-- C3: on a parseable profile URL the API path is attempted exactly when
`use_api` is set and credentials are configured; an API-path failure is
never terminal — exactly one page-extraction attempt follows whenever the
API path is skipped or fails (and none when it succeeds), with no retry
loop; and with no credentials the call goes straight to fallback, so a
success then reports `method_used = "scraping"` (Fallback). -/
theorem C3_api_gating_and_single_fallback (env : ScrapeEnv)
    (url : String) (use_api : Bool)
    (h : (extractHandle url).isSome = true) :
    ((scrape_profile env url use_api).2.any ScrapeAction.isApi =
        (use_api && env.has_access_token)) ∧
      ((scrape_profile env url use_api).2.count ScrapeAction.pageExtraction =
        if use_api && env.has_access_token && (scrapeViaApi env).1.success
        then 0 else 1) ∧
      (env.has_access_token = false →
        scrape_profile env url use_api = scrapeViaPlaywright env ∧
          ((scrape_profile env url use_api).1.success = true →
            (scrape_profile env url use_api).1.method_used = "scraping")) := by
  cases hE : extractHandle url with
  | none => rw [hE] at h; simp at h
  | some hd =>
    obtain ⟨tok, uid, pok, gok⟩ := env
    cases use_api <;> cases tok <;> cases uid <;> cases pok <;> cases gok <;>
      simp [scrape_profile, hE, scrapeViaApi, scrapeViaPlaywright,
        ScrapeAction.isApi, List.count_cons]

/-- Witness for C3 at a concrete parseable URL and environment. -/
theorem C3_witness :
    ((scrape_profile ⟨false, none, false, true⟩
          "https://www.instagram.com/alice/" true).2.any ScrapeAction.isApi =
        (true && (false : Bool))) ∧
      ((scrape_profile ⟨false, none, false, true⟩
          "https://www.instagram.com/alice/" true).2.count
            ScrapeAction.pageExtraction =
        if true && (false : Bool) &&
            (scrapeViaApi ⟨false, none, false, true⟩).1.success
        then 0 else 1) ∧
      ((false : Bool) = false →
        scrape_profile ⟨false, none, false, true⟩
            "https://www.instagram.com/alice/" true =
          scrapeViaPlaywright ⟨false, none, false, true⟩ ∧
          ((scrape_profile ⟨false, none, false, true⟩
              "https://www.instagram.com/alice/" true).1.success = true →
            (scrape_profile ⟨false, none, false, true⟩
                "https://www.instagram.com/alice/" true).1.method_used =
              "scraping")) :=
  C3_api_gating_and_single_fallback ⟨false, none, false, true⟩
    "https://www.instagram.com/alice/" true (by decide)

/-- C8: when no handle can be extracted from the profile URL,
`scrape_profile` returns the `Invalid Instagram profile URL` failure with
`method_used = "none"` and its action trace is empty: no rate-budget
wait, no API sub-call and no page-extraction attempt occur. -/
theorem C8_invalid_url_no_network_action (env : ScrapeEnv) (url : String)
    (use_api : Bool) (h : extractHandle url = none) :
    scrape_profile env url use_api =
      (⟨false, "none", some "Invalid Instagram profile URL"⟩, []) := by
  simp [scrape_profile, h]

/-- Witness for C8 at a concrete non-Instagram URL. -/
theorem C8_witness :
    scrape_profile ⟨true, some "42", true, true⟩
        "https://example.com/alice" true =
      (⟨false, "none", some "Invalid Instagram profile URL"⟩, []) :=
  C8_invalid_url_no_network_action ⟨true, some "42", true, true⟩
    "https://example.com/alice" true (by decide)

/-! ## Reels discovery (`sources/instagram_discovery.py`) -/

/-- A discovered candidate record: the dictionary built by
`_extract_creators_from_reels`, restricted to the fields the dedup and
filter logic read. -/
structure Candidate where
  handle : String
  follower_count : ℕ
  niche : Option String
deriving DecidableEq, Repr

/-- Method `InstagramReelsDiscovery._passes_filters`: inclusive follower
bounds, then niche membership when a niche allow-list is configured.  An
empty list models Python's falsy `None`/`[]` (no niche filter); a
candidate with no detected niche fails a configured allow-list because
`None not in niches`. -/
def passes_filters (c : Candidate) (niches : List String)
    (min_followers max_followers : ℕ) : Bool :=
  if c.follower_count < min_followers ||
      max_followers < c.follower_count then false
  else if !niches.isEmpty &&
      !(match c.niche with
        | some n => decide (n ∈ niches)
        | none => false) then false
  else true

/-- The per-candidate loop inside `_discover_from_reels`: break once
`len(creators) >= max_creators`, skip handles already in
`self.discovered_creators`, skip filter failures, otherwise add the
handle to the seen-set and append the candidate to the output. -/
def discoverStep (maxC min_followers max_followers : ℕ)
    (niches : List String) :
    List Candidate → List String → List Candidate →
      List String × List Candidate
  | [], seen, out => (seen, out)
  | c :: cs, seen, out =>
    if maxC ≤ out.length then (seen, out)
    else if c.handle ∈ seen then
      discoverStep maxC min_followers max_followers niches cs seen out
    else if !passes_filters c niches min_followers max_followers then
      discoverStep maxC min_followers max_followers niches cs seen out
    else
      discoverStep maxC min_followers max_followers niches cs
        (c.handle :: seen) (out ++ [c])

/-- The scroll loop of `_discover_from_reels`: while the output is below
`max_creators`, process the next extracted batch of candidates (the
finite batch list models the `scroll_duration` time bound).  `seen` is
`self.discovered_creators`, the seen-set stored on the engine instance. -/
def discoverRun (maxC min_followers max_followers : ℕ)
    (niches : List String) :
    List (List Candidate) → List String → List Candidate →
      List String × List Candidate
  | [], seen, out => (seen, out)
  | b :: bs, seen, out =>
    if maxC ≤ out.length then (seen, out)
    else
      discoverRun maxC min_followers max_followers niches bs
        (discoverStep maxC min_followers max_followers niches b seen out).1
        (discoverStep maxC min_followers max_followers niches b seen out).2

/-- Invariant carried by the discovery loops: output handles are recorded
in the seen-set, pairwise distinct, the output is bounded by
`max_creators`, and every output candidate passes the filters. -/
def DiscoverInv (niches : List String) (minF maxF maxC : ℕ)
    (seen : List String) (out : List Candidate) : Prop :=
  (∀ c ∈ out, c.handle ∈ seen) ∧ (out.map Candidate.handle).Nodup ∧
    out.length ≤ maxC ∧ (∀ c ∈ out, passes_filters c niches minF maxF = true)

theorem discoverStep_inv (maxC minF maxF : ℕ) (niches : List String) :
    ∀ (cands : List Candidate) (seen : List String) (out : List Candidate),
      DiscoverInv niches minF maxF maxC seen out →
      DiscoverInv niches minF maxF maxC
          (discoverStep maxC minF maxF niches cands seen out).1
          (discoverStep maxC minF maxF niches cands seen out).2 ∧
        (∀ h ∈ seen,
          h ∈ (discoverStep maxC minF maxF niches cands seen out).1) ∧
        (∀ c ∈ (discoverStep maxC minF maxF niches cands seen out).2,
          c ∈ out ∨ c.handle ∉ seen) := by
  intro cands
  induction cands with
  | nil =>
    intro seen out hinv
    exact ⟨hinv, fun h hh => hh, fun c hc => Or.inl hc⟩
  | cons c cs ih =>
    intro seen out hinv
    obtain ⟨hseen, hnodup, hlen, hfilters⟩ := hinv
    by_cases hfull : maxC ≤ out.length
    · simp only [discoverStep, if_pos hfull]
      exact ⟨⟨hseen, hnodup, hlen, hfilters⟩, fun h hh => hh,
        fun c hc => Or.inl hc⟩
    · by_cases hdup : c.handle ∈ seen
      · simp only [discoverStep, if_neg hfull, if_pos hdup]
        exact ih seen out ⟨hseen, hnodup, hlen, hfilters⟩
      · by_cases hpass : passes_filters c niches minF maxF = true
        · simp only [discoverStep, if_neg hfull, if_neg hdup, hpass,
            Bool.not_true, Bool.false_eq_true, if_false]
          have hinv' : DiscoverInv niches minF maxF maxC
              (c.handle :: seen) (out ++ [c]) := by
            refine ⟨?_, ?_, ?_, ?_⟩
            · intro d hd
              rcases List.mem_append.mp hd with hd | hd
              · exact List.mem_cons_of_mem _ (hseen d hd)
              · rcases List.mem_singleton.mp hd with rfl
                exact List.mem_cons_self _ _
            · rw [List.map_append]
              refine List.Nodup.append hnodup (List.nodup_singleton _) ?_
              intro x hx hx'
              rcases List.mem_singleton.mp hx' with rfl
              rcases List.mem_map.mp hx with ⟨d, hd, hdh⟩
              exact hdup (hdh ▸ hseen d hd)
            · rw [List.length_append]
              simpa using Nat.succ_le_of_lt (lt_of_not_le hfull)
            · intro d hd
              rcases List.mem_append.mp hd with hd | hd
              · exact hfilters d hd
              · rcases List.mem_singleton.mp hd with rfl
                exact hpass
          have := ih (c.handle :: seen) (out ++ [c]) hinv'
          refine ⟨this.1, ?_, ?_⟩
          · intro h hh
            exact this.2.1 h (List.mem_cons_of_mem _ hh)
          · intro d hd
            rcases this.2.2 d hd with hd' | hd'
            · rcases List.mem_append.mp hd' with hd'' | hd''
              · exact Or.inl hd''
              · rcases List.mem_singleton.mp hd'' with rfl
                exact Or.inr hdup
            · exact Or.inr fun hmem => hd' (List.mem_cons_of_mem _ hmem)
        · simp only [discoverStep, if_neg hfull, if_neg hdup,
            Bool.not_eq_true] at hpass ⊢
          simp only [hpass, Bool.not_false, if_true]
          exact ih seen out ⟨hseen, hnodup, hlen, hfilters⟩

theorem discoverRun_inv (maxC minF maxF : ℕ) (niches : List String) :
    ∀ (batches : List (List Candidate)) (seen : List String)
      (out : List Candidate),
      DiscoverInv niches minF maxF maxC seen out →
      DiscoverInv niches minF maxF maxC
          (discoverRun maxC minF maxF niches batches seen out).1
          (discoverRun maxC minF maxF niches batches seen out).2 ∧
        (∀ h ∈ seen,
          h ∈ (discoverRun maxC minF maxF niches batches seen out).1) ∧
        (∀ c ∈ (discoverRun maxC minF maxF niches batches seen out).2,
          c ∈ out ∨ c.handle ∉ seen) := by
  intro batches
  induction batches with
  | nil =>
    intro seen out hinv
    exact ⟨hinv, fun h hh => hh, fun c hc => Or.inl hc⟩
  | cons b bs ih =>
    intro seen out hinv
    by_cases hfull : maxC ≤ out.length
    · simp only [discoverRun, if_pos hfull]
      exact ⟨hinv, fun h hh => hh, fun c hc => Or.inl hc⟩
    · simp only [discoverRun, if_neg hfull]
      have hstep := discoverStep_inv maxC minF maxF niches b seen out hinv
      have hrun := ih (discoverStep maxC minF maxF niches b seen out).1
        (discoverStep maxC minF maxF niches b seen out).2 hstep.1
      refine ⟨hrun.1, ?_, ?_⟩
      · intro h hh
        exact hrun.2.1 h (hstep.2.1 h hh)
      · intro c hc
        rcases hrun.2.2 c hc with hc' | hc'
        · rcases hstep.2.2 c hc' with hc'' | hc''
          · exact Or.inl hc''
          · exact Or.inr hc''
        · exact Or.inr fun hmem => hc' (hstep.2.1 _ hmem)

/-- The ten raw candidates of the C4 scenario: three entries duplicate an
earlier handle (the second `"amy"`, the second `"bob"`, the third
`"amy"`) and two fail the follower bounds (`"cat"` below 1000, `"eve"`
above 1000000). -/
def c4Batch : List Candidate :=
  [⟨"amy", 5000, none⟩, ⟨"bob", 6000, none⟩, ⟨"amy", 7000, none⟩,
    ⟨"cat", 500, none⟩, ⟨"dan", 8000, none⟩, ⟨"bob", 9000, none⟩,
    ⟨"eve", 2000000, none⟩, ⟨"fay", 10000, none⟩, ⟨"gus", 11000, none⟩,
    ⟨"amy", 12000, none⟩]

/-- C4: every single discovery run (from a fresh output list) returns at
most `max_creators` candidates with pairwise-distinct handles, all of
which pass the follower-bound and niche filters; and the concrete run
with `max_creators = 5` fed the ten raw candidates of `c4Batch` (three
duplicate handles, two follower-bound failures) returns exactly the five
unique filter-passing candidates. -/
theorem C4_discovery_bounded_unique_filtered (maxC minF maxF : ℕ)
    (niches : List String) (batches : List (List Candidate))
    (seen0 : List String) :
    ((discoverRun maxC minF maxF niches batches seen0 []).2.length ≤ maxC ∧
      ((discoverRun maxC minF maxF niches batches seen0 []).2.map
          Candidate.handle).Nodup ∧
      (discoverRun maxC minF maxF niches batches seen0 []).2.all
        (fun c => passes_filters c niches minF maxF) = true) ∧
      (discoverRun 5 1000 1000000 [] [c4Batch] [] []).2 =
        [⟨"amy", 5000, none⟩, ⟨"bob", 6000, none⟩, ⟨"dan", 8000, none⟩,
          ⟨"fay", 10000, none⟩, ⟨"gus", 11000, none⟩] := by
  have hinv : DiscoverInv niches minF maxF maxC seen0 [] :=
    ⟨fun c hc => absurd hc (List.not_mem_nil c), List.nodup_nil,
      Nat.zero_le _, fun c hc => absurd hc (List.not_mem_nil c)⟩
  have h := (discoverRun_inv maxC minF maxF niches batches seen0 [] hinv).1
  obtain ⟨_, hnodup, hlen, hfilters⟩ := h
  refine ⟨⟨hlen, hnodup, ?_⟩, by decide⟩
  rw [List.all_eq_true]
  intro c hc
  exact hfilters c hc

/-- The single candidate used in the C9 two-run scenario. -/
def c9Cand : Candidate := ⟨"amy", 5000, none⟩

/-- C9 counterexample: on one engine, a first discovery run that emits
`c9Cand` leaves its handle in the instance-level seen-set, so a second
run fed the same raw candidate emits nothing — while the same run from a
fresh seen-set emits the candidate.  The second run's output therefore
depends on the first run's seen-set, and an emitted handle is never
re-emitted, contradicting the claimed per-run scoping. -/
theorem C9_counterexample_seen_set_persists :
    (discoverRun 5 1000 1000000 [] [[c9Cand]]
        (discoverRun 5 1000 1000000 [] [[c9Cand]] [] []).1 []).2 = [] ∧
      (discoverRun 5 1000 1000000 [] [[c9Cand]] [] []).2 = [c9Cand] := by
  decide

/-- C9 amended: the deduplication seen-set is scoped to the engine
instance and persists across discovery runs — it grows monotonically and
is never discarded at run end, so a handle already in the seen-set when a
run starts (in particular one emitted by an earlier run on the same
engine) is never emitted by that run. -/
theorem C9_amended_seen_set_engine_scoped (maxC minF maxF : ℕ)
    (niches : List String) (batches : List (List Candidate))
    (seen0 : List String) :
    (discoverRun maxC minF maxF niches batches seen0 []).2.all
        (fun c => decide (c.handle ∉ seen0)) = true ∧
      seen0.all
        (fun h =>
          decide (h ∈ (discoverRun maxC minF maxF niches batches seen0 []).1)) =
        true := by
  have hinv : DiscoverInv niches minF maxF maxC seen0 [] :=
    ⟨fun c hc => absurd hc (List.not_mem_nil c), List.nodup_nil,
      Nat.zero_le _, fun c hc => absurd hc (List.not_mem_nil c)⟩
  have h := discoverRun_inv maxC minF maxF niches batches seen0 [] hinv
  constructor
  · rw [List.all_eq_true]
    intro c hc
    rcases h.2.2 c hc with hc' | hc'
    · exact absurd hc' (List.not_mem_nil c)
    · exact decide_eq_true hc'
  · rw [List.all_eq_true]
    intro s hs
    exact decide_eq_true (h.2.1 s hs)

/-! ## Stall detection in `_discover_from_reels` -/

/-- One iteration of the discovery scroll loop, as far as stall detection
is concerned: the wall-clock second at which the end-of-iteration stall
check runs, and how many new candidates the step extracted
(pre-filter). -/
structure DiscStep where
  time : ℕ
  extracted : ℕ
deriving DecidableEq, Repr

/-- The stall checks performed by `_discover_from_reels`: at the end of
every iteration the code compares `datetime.now() - last_scroll_time`
against 30 seconds, reloads the page on overrun, and in both branches
resets `last_scroll_time` to the current time — whether or not the
iteration extracted anything.  Returns each iteration's reload flag. -/
def stallFlags (lastScroll : ℕ) : List DiscStep → List Bool
  | [] => []
  | s :: ss => decide (30 < s.time - lastScroll) :: stallFlags s.time ss

/-- The time of the most recent step strictly before index `i` that
produced at least one new pre-filter extraction, or the run start when
there is none: the stall baseline the specification claims the engine
tracks. -/
def lastProductiveTime (start : ℕ) (steps : List DiscStep) (i : ℕ) : ℕ :=
  ((steps.take i).filter fun s => decide (0 < s.extracted)).foldl
    (fun _ s => s.time) start

/-- C5 counterexample: in a run whose two iterations extract nothing and
check the stall clock at 20s and 40s, more than 30 seconds have elapsed
since the last productive step (the run start) by the second check, yet
the engine reloads on neither iteration — the clock was reset by the
unproductive first iteration, refuting the claim that the stall baseline
is the last productive extraction. -/
theorem C5_counterexample_unproductive_reset :
    lastProductiveTime 0 [⟨20, 0⟩, ⟨40, 0⟩] 1 = 0 ∧
      30 < 40 - lastProductiveTime 0 [⟨20, 0⟩, ⟨40, 0⟩] 1 ∧
      stallFlags 0 [⟨20, 0⟩, ⟨40, 0⟩] = [false, false] := by
  decide

/-- Modelled from the amended claim: a reload fires exactly when an
iteration's stall check runs more than 30 seconds after the previous
iteration's check (the loop entry time for the first iteration),
regardless of whether any iteration extracted new candidates. -/
def amendedFlags (lastScroll : ℕ) (steps : List DiscStep) : List Bool :=
  (steps.zip (lastScroll :: steps.map DiscStep.time)).map
    fun p => decide (30 < p.1.time - p.2)

/-- C5 amended: the stall clock is reset at the end of every loop
iteration whether or not it produced new extractions, so the engine
performs exactly one reload at each iteration whose stall check runs
more than 30 seconds after the previous iteration's check — and the run
is never terminated by the recovery: every iteration is still processed
(one reload flag per iteration). -/
theorem C5_amended_stall_check_per_iteration (lastScroll : ℕ)
    (steps : List DiscStep) :
    stallFlags lastScroll steps = amendedFlags lastScroll steps ∧
      (stallFlags lastScroll steps).length = steps.length := by
  constructor
  · induction steps generalizing lastScroll with
    | nil => rfl
    | cons s ss ih =>
      simp only [stallFlags, amendedFlags, List.map_cons,
        List.zip_cons_cons]
      exact congrArg _ (ih s.time)
  · induction steps generalizing lastScroll with
    | nil => rfl
    | cons s ss ih => simp [stallFlags, ih]

/-! ## Engagement-rate derivations -/

/-- Function `parse_engagement_rate` in `utils/parsers.py`: `None` when
`followers` is falsy or nonpositive, otherwise
`min(1.0, (likes + comments) / followers)` — clamped above at 1. -/
def parse_engagement_rate (likes comments followers : ℤ) : Option ℚ :=
  if followers ≤ 0 then none
  else some (pymin 1 (((likes + comments : ℤ) : ℚ) / (followers : ℚ)))

/-- The overall engagement rate computed in
`InstagramScraper._create_profile_from_api`:
`min(1.0, total_engagement / (follower_count * len(posts)))` over the
posts' `(likes, comments)` pairs; no value when there are no posts or no
positive follower count. -/
def overall_engagement_rate (posts : List (ℤ × ℤ))
    (follower_count : ℤ) : Option ℚ :=
  if posts ≠ [] ∧ 0 < follower_count then
    some (pymin 1 ((((posts.map fun p => p.1 + p.2).sum : ℤ) : ℚ) /
      ((follower_count : ℚ) * (posts.length : ℚ))))
  else none

/-- A validated pydantic v1 `Post` model instance as the `CreatorProfile`
root validator sees it inside `values` after field validation, restricted
to the count fields the validator reads. -/
structure Post where
  likes : Option ℤ
  comments : Option ℤ
deriving DecidableEq, Repr

/-- The call `post.get('likes', 0)` performed by the root validator:
pydantic v1 `BaseModel` defines no `.get` method, so the call raises
`AttributeError` for every field name and default. -/
def Post.pyGet (_p : Post) (_field : String) (_default : ℤ) :
    Except String ℤ :=
  .error "AttributeError: Post object has no attribute get"

/-- The sum over the validator's generator,
`sum((post.get('likes', 0) or 0) + (post.get('comments', 0) or 0) for post in posts)`:
`sum` consumes the generator eagerly, so on any nonempty post list the
first `post.get` raises and the whole sum raises. -/
def totalEngagement : List Post → Except String ℤ
  | [] => .ok 0
  | p :: ps => do
    let l ← p.pyGet "likes" 0
    let c ← p.pyGet "comments" 0
    let rest ← totalEngagement ps
    .ok ((l + c) + rest)

/-- The `calculate_engagement_rate` root validator of `CreatorProfile`
(`models/schemas.py`), as executed by pydantic v1: it runs after field
validation, so `values` holds `Post` model instances.  Input is the
validated field values the validator reads (`engagement_rate`;
`top_posts` with a falsy value collapsed to `[]`; `follower_count` with a
falsy value collapsed to `0`); output is the final `engagement_rate`
value, or the exception the validator raises.  When the rate is unset and
top posts exist, the `post.get` calls raise `AttributeError` before the
unclamped quotient `total_engagement / follower_count` can be
assigned. -/
def calculate_engagement_rate (engagement_rate : Option ℚ)
    (top_posts : List Post) (follower_count : ℤ) :
    Except String (Option ℚ) :=
  match engagement_rate with
  | some q => .ok (some q)
  | none =>
    if top_posts.isEmpty then .ok none
    else
      match totalEngagement top_posts with
      | .error e => .error e
      | .ok total =>
        if 0 < follower_count then
          .ok (some ((total : ℚ) / (follower_count : ℚ)))
        else .ok none

theorem parse_engagement_rate_in_unit_interval
    (likes comments followers : ℤ) (hl : 0 ≤ likes) (hc : 0 ≤ comments)
    (q : ℚ) (h : parse_engagement_rate likes comments followers = some q) :
    0 ≤ q ∧ q ≤ 1 := by
  unfold parse_engagement_rate at h
  by_cases hf : followers ≤ 0
  · simp [hf] at h
  · simp only [hf, if_false, Option.some.injEq] at h
    push_neg at hf
    subst h
    rw [pymin_eq_min]
    constructor
    · refine le_min (by norm_num) (div_nonneg ?_ ?_)
      · exact_mod_cast add_nonneg hl hc
      · exact_mod_cast hf.le
    · exact min_le_left _ _

theorem calculate_engagement_rate_raises (p : Post) (ps : List Post)
    (fc : ℤ) :
    calculate_engagement_rate none (p :: ps) fc =
      Except.error "AttributeError: Post object has no attribute get" :=
  rfl

/-- C6: every derivation path that can populate an engagement-rate field
yields a value in `[0, 1]`: `parse_engagement_rate` clamps with
`min(1.0, ...)` (equal to 1 when 200 raw likes + 0 comments exceed 100
followers), the overall rate of `_create_profile_from_api` clamps the
same way, and the `schemas.py` root validator can never populate the
field with a derived value — whenever it returns it leaves
`engagement_rate` unchanged, and whenever the rate is unset and top
posts exist it raises `AttributeError` (from `post.get` on pydantic v1
`Post` instances) before its unclamped quotient is reached. -/
theorem C6_derived_engagement_rate_clamped :
    (∀ likes comments followers : ℤ, 0 ≤ likes → 0 ≤ comments →
      ∀ q : ℚ, parse_engagement_rate likes comments followers = some q →
        0 ≤ q ∧ q ≤ 1) ∧
      parse_engagement_rate 200 0 100 = some 1 ∧
      (∀ (posts : List (ℤ × ℤ)) (fc : ℤ),
        (∀ p ∈ posts, 0 ≤ p.1 ∧ 0 ≤ p.2) →
        ∀ q : ℚ, overall_engagement_rate posts fc = some q →
          0 ≤ q ∧ q ≤ 1) ∧
      (∀ (er : Option ℚ) (tp : List Post) (fc : ℤ) (v : Option ℚ),
        calculate_engagement_rate er tp fc = Except.ok v → v = er) ∧
      (∀ (p : Post) (ps : List Post) (fc : ℤ),
        calculate_engagement_rate none (p :: ps) fc =
          Except.error "AttributeError: Post object has no attribute get") := by
  refine ⟨?_, ?_, ?_, ?_, calculate_engagement_rate_raises⟩
  · intro likes comments followers hl hc q h
    exact parse_engagement_rate_in_unit_interval likes comments followers
      hl hc q h
  · norm_num [parse_engagement_rate, pymin]
  · intro posts fc hp q h
    unfold overall_engagement_rate at h
    by_cases hcond : posts ≠ [] ∧ 0 < fc
    · rw [if_pos hcond, Option.some_inj] at h
      subst h
      rw [pymin_eq_min]
      refine ⟨le_min (by norm_num) (div_nonneg ?_ ?_), min_le_left _ _⟩
      · have hsum : (0 : ℤ) ≤ (posts.map fun p => p.1 + p.2).sum := by
          apply List.sum_nonneg
          intro x hx
          rcases List.mem_map.mp hx with ⟨p, hpmem, rfl⟩
          have := hp p hpmem
          omega
        exact_mod_cast hsum
      · have hfc : (0 : ℚ) ≤ (fc : ℚ) := by exact_mod_cast hcond.2.le
        exact mul_nonneg hfc (Nat.cast_nonneg _)
    · rw [if_neg hcond] at h
      exact absurd h (by simp)
  · intro er tp fc v h
    cases er with
    | some q =>
      simp only [calculate_engagement_rate, Except.ok.injEq] at h
      exact h.symm
    | none =>
      cases tp with
      | nil =>
        simp only [calculate_engagement_rate, List.isEmpty_nil, if_true,
          Except.ok.injEq] at h
        exact h.symm
      | cons p ps =>
        rw [calculate_engagement_rate_raises] at h
        exact absurd h (by simp)

/-- Witness for C6: the clamped parse path evaluated where the raw
engagement (200) exceeds the follower count (100). -/
theorem C6_witness :
    parse_engagement_rate 200 0 100 = some 1 ∧
      0 ≤ (1 : ℚ) ∧ (1 : ℚ) ≤ 1 :=
  ⟨C6_derived_engagement_rate_clamped.2.1,
    C6_derived_engagement_rate_clamped.1 200 0 100 (by norm_num)
      (by norm_num) 1 C6_derived_engagement_rate_clamped.2.1⟩

/-! ## Batch orchestration (`run_scraper.py`, `tasks/worker.py`) -/

/-- A creator work item: the `{'source': ..., 'profile_url': ...}`
dictionaries consumed by both batch entry points. -/
structure Creator where
  source : String
  profile_url : String
deriving DecidableEq, Repr

/-- The conversion applied by `scrape_creators_batch` to each element of
the `asyncio.gather(..., return_exceptions=True)` result: an exception
value becomes a structured failure with `method_used = "none"`. -/
def toResult : Except String ScrapingResult → ScrapingResult
  | .ok r => r
  | .error e => ⟨false, "none", some e⟩

/-- Method `CreatorScraperOrchestrator.scrape_creators_batch`: one task
per creator, gathered in task order, exceptions converted to structured
failures.  The `scrape` oracle models `scrape_creator` on one creator; an
`.error` models a task that raised. -/
def scrape_creators_batch
    (scrape : Creator → Except String ScrapingResult)
    (creators : List Creator) : List ScrapingResult :=
  (creators.map scrape).map toResult

/-- The event-loop semantics of `asyncio.gather`: the spawned tasks
complete in an arbitrary order (`order`, a list of task indices), and
each completion stores its value into its own slot of the result array.
`gather` returns the slot array. -/
def gatherSlots {α : Type} (tasks : List α) (order : List ℕ) :
    List (Option α) :=
  order.foldl (fun acc i => acc.set i tasks[i]?)
    (List.replicate tasks.length none)

theorem gatherSlots_getElem {α : Type} (tasks : List α) (order : List ℕ) :
    ∀ (acc : List (Option α)) (j : ℕ),
      (order.foldl (fun a i => a.set i tasks[i]?) acc)[j]? =
        if j ∈ order ∧ j < acc.length then some tasks[j]? else acc[j]? := by
  induction order with
  | nil =>
    intro acc j
    simp
  | cons i rest ih =>
    intro acc j
    simp only [List.foldl_cons]
    rw [ih, List.length_set]
    by_cases hrest : j ∈ rest
    · by_cases hlen : j < acc.length
      · rw [if_pos ⟨hrest, hlen⟩, if_pos ⟨List.mem_cons_of_mem _ hrest, hlen⟩]
      · rw [if_neg (fun h => hlen h.2), if_neg (fun h => hlen h.2),
          List.getElem?_set]
        have hout : acc[j]? = none :=
          List.getElem?_eq_none (Nat.le_of_not_lt hlen)
        by_cases hij : i = j
        · subst hij
          rw [if_pos rfl, if_neg hlen, hout]
        · rw [if_neg hij, hout]
    · rw [if_neg (fun h => hrest h.1), List.getElem?_set]
      by_cases hij : i = j
      · subst hij
        by_cases hlen : i < acc.length
        · rw [if_pos rfl, if_pos hlen,
            if_pos ⟨List.mem_cons_self _ _, hlen⟩]
        · rw [if_pos rfl, if_neg hlen, if_neg (fun h => hlen h.2),
            List.getElem?_eq_none (Nat.le_of_not_lt hlen)]
      · rw [if_neg hij,
          if_neg (fun h =>
            (List.mem_cons.mp h.1).elim (fun he => hij he.symm) hrest)]

theorem gatherSlots_complete {α : Type} (tasks : List α) (order : List ℕ)
    (hall : ∀ j < tasks.length, j ∈ order) :
    gatherSlots tasks order = tasks.map some := by
  apply List.ext_getElem?
  intro j
  rw [gatherSlots, gatherSlots_getElem, List.getElem?_map,
    List.length_replicate]
  by_cases hj : j < tasks.length
  · rw [if_pos ⟨hall j hj, hj⟩, List.getElem?_eq_getElem hj]
    rfl
  · rw [if_neg (fun h => hj h.2), List.getElem?_replicate, if_neg hj,
      List.getElem?_eq_none (Nat.le_of_not_lt hj)]
    rfl

/-- `scrape_creators_batch` with the gather's completion order made
explicit: the tasks complete in `order`, each storing into its own result
slot; the post-processing loop converts raised exceptions to structured
failures in slot order. -/
def scrape_creators_batch_sched
    (scrape : Creator → Except String ScrapingResult)
    (creators : List Creator) (order : List ℕ) :
    List (Option ScrapingResult) :=
  (gatherSlots (creators.map scrape) order).map (Option.map toResult)

/-- C10: for every completion order covering all spawned tasks, the
outcome list of `scrape_creators_batch` is in input order — the scheduled
run equals the input-order map, and the `i`-th outcome is exactly the
converted result of scraping the `i`-th input candidate. -/
theorem C10_batch_results_in_input_order
    (scrape : Creator → Except String ScrapingResult)
    (creators : List Creator) (order : List ℕ)
    (hall : ∀ j < creators.length, j ∈ order) :
    scrape_creators_batch_sched scrape creators order =
        (scrape_creators_batch scrape creators).map some ∧
      ∀ i : ℕ, (scrape_creators_batch scrape creators)[i]? =
        (creators[i]?).map fun c => toResult (scrape c) := by
  constructor
  · unfold scrape_creators_batch_sched scrape_creators_batch
    rw [gatherSlots_complete (creators.map scrape) order
        (by simpa using hall)]
    simp [List.map_map, Function.comp_def]
  · intro i
    simp [scrape_creators_batch, List.getElem?_map, Function.comp_def]

/-- A concrete scrape oracle for the batch witnesses: the second creator
raises, the others succeed via the API path. -/
def witnessScrapeO : Creator → Except String ScrapingResult :=
  fun c => if c.profile_url = "https://www.instagram.com/bob/" then
    .error "boom"
  else .ok ⟨true, "api", none⟩

/-- The two-creator input of the batch witnesses. -/
def witnessCreators : List Creator :=
  [⟨"instagram", "https://www.instagram.com/alice/"⟩,
    ⟨"instagram", "https://www.instagram.com/bob/"⟩]

/-- Witness for C10 with tasks completing in reversed order. -/
theorem C10_witness :
    scrape_creators_batch_sched witnessScrapeO witnessCreators [1, 0] =
        (scrape_creators_batch witnessScrapeO witnessCreators).map some ∧
      ∀ i : ℕ,
        (scrape_creators_batch witnessScrapeO witnessCreators)[i]? =
          (witnessCreators[i]?).map fun c => toResult (witnessScrapeO c) :=
  C10_batch_results_in_input_order witnessScrapeO witnessCreators [1, 0]
    (by decide)

/-- One entry of the worker batch result list (`results['results']`),
restricted to the success flag and error message. -/
structure WorkerOutcome where
  success : Bool
  error : Option String
deriving DecidableEq, Repr

/-- The aggregate dictionary built by `process_creator_batch`. -/
structure BatchResults where
  success : Bool
  total_creators : ℕ
  successful : ℕ
  failed : ℕ
  results : List WorkerOutcome
deriving DecidableEq, Repr

/-- How `process_creator_batch` records the outcome of one scrape call:
a returned result is appended and tallied by its success flag; a raised
exception is caught, recorded as a structured failure, and tallied as
failed. -/
def processScrapeOutcome (acc : BatchResults) :
    Except String WorkerOutcome → BatchResults
  | .ok r =>
    { acc with
      results := acc.results ++ [r],
      successful := if r.success then acc.successful + 1
        else acc.successful,
      failed := if r.success then acc.failed else acc.failed + 1 }
  | .error e =>
    { acc with
      results := acc.results ++ [⟨false, some e⟩],
      failed := acc.failed + 1 }

/-- The per-creator loop body of `process_creator_batch`: entries with a
missing source or URL append a structured failure and count as failed;
otherwise the scrape call's outcome is recorded. -/
def processCreatorStep (scrape : Creator → Except String WorkerOutcome)
    (acc : BatchResults) (c : Creator) : BatchResults :=
  if c.source = "" ∨ c.profile_url = "" then
    { acc with
      results :=
        acc.results ++ [⟨false, some "Missing source or profile_url"⟩],
      failed := acc.failed + 1 }
  else processScrapeOutcome acc (scrape c)

/-- RQ task `process_creator_batch` (`tasks/worker.py`). -/
def process_creator_batch (scrape : Creator → Except String WorkerOutcome)
    (creators : List Creator) : BatchResults :=
  let final := creators.foldl (processCreatorStep scrape)
    { success := true, total_creators := creators.length, successful := 0,
      failed := 0, results := [] }
  { final with success := final.failed == 0 }

theorem processCreatorStep_counts
    (scrape : Creator → Except String WorkerOutcome)
    (creators : List Creator) :
    ∀ acc : BatchResults,
      (creators.foldl (processCreatorStep scrape) acc).successful +
          (creators.foldl (processCreatorStep scrape) acc).failed =
        acc.successful + acc.failed + creators.length ∧
      (creators.foldl (processCreatorStep scrape) acc).results.length =
        acc.results.length + creators.length ∧
      (creators.foldl (processCreatorStep scrape) acc).total_creators =
        acc.total_creators := by
  induction creators with
  | nil => intro acc; exact ⟨rfl, rfl, rfl⟩
  | cons c cs ih =>
    intro acc
    simp only [List.foldl_cons, List.length_cons]
    have step : (processCreatorStep scrape acc c).successful +
          (processCreatorStep scrape acc c).failed =
        acc.successful + acc.failed + 1 ∧
        (processCreatorStep scrape acc c).results.length =
          acc.results.length + 1 ∧
        (processCreatorStep scrape acc c).total_creators =
          acc.total_creators := by
      unfold processCreatorStep
      by_cases hv : c.source = "" ∨ c.profile_url = ""
      · rw [if_pos hv]
        refine ⟨by dsimp only; omega, by simp, rfl⟩
      · rw [if_neg hv]
        cases hs : scrape c with
        | ok r =>
          by_cases hr : r.success = true
          · refine ⟨?_, ?_, ?_⟩ <;> simp [processScrapeOutcome, hr]
            omega
          · refine ⟨?_, ?_, ?_⟩ <;> simp [processScrapeOutcome, hr]
            omega
        | error e =>
          refine ⟨?_, ?_, ?_⟩ <;> simp [processScrapeOutcome]
          omega
    have := ih (processCreatorStep scrape acc c)
    omega

/-- C2: both batch entry points return exactly one outcome per input
candidate — `total_creators = len(creators)`, the outcome list has one
entry per candidate, and `successful + failed = total` — and a candidate
whose scrape unit raises an unclassified exception is converted into a
structured failure outcome at its own position without preventing the
other candidates' outcomes from being collected. -/
theorem C2_batch_outcome_per_candidate
    (scrapeW : Creator → Except String WorkerOutcome)
    (scrapeO : Creator → Except String ScrapingResult)
    (creators : List Creator) (i : ℕ) (hi : i < creators.length)
    (e : String) (herr : scrapeO (creators.get ⟨i, hi⟩) = .error e) :
    (process_creator_batch scrapeW creators).total_creators =
        creators.length ∧
      (process_creator_batch scrapeW creators).results.length =
        creators.length ∧
      (process_creator_batch scrapeW creators).successful +
          (process_creator_batch scrapeW creators).failed =
        creators.length ∧
      (scrape_creators_batch scrapeO creators).length = creators.length ∧
      (scrape_creators_batch scrapeO creators)[i]? =
        some ⟨false, "none", some e⟩ := by
  have hc := processCreatorStep_counts scrapeW creators
    { success := true, total_creators := creators.length, successful := 0,
      failed := 0, results := [] }
  refine ⟨?_, ?_, ?_, ?_, ?_⟩
  · simpa [process_creator_batch] using hc.2.2
  · simpa [process_creator_batch] using hc.2.1
  · simpa [process_creator_batch] using hc.1
  · simp [scrape_creators_batch]
  · rw [List.get_eq_getElem] at herr
    simp [scrape_creators_batch, List.getElem?_eq_getElem hi, herr,
      toResult]

/-- Witness for C2: two creators, the second of which raises. -/
theorem C2_witness :
    (process_creator_batch (fun _ => .ok ⟨true, none⟩)
          witnessCreators).total_creators = witnessCreators.length ∧
      (process_creator_batch (fun _ => .ok ⟨true, none⟩)
          witnessCreators).results.length = witnessCreators.length ∧
      (process_creator_batch (fun _ => .ok ⟨true, none⟩)
            witnessCreators).successful +
          (process_creator_batch (fun _ => .ok ⟨true, none⟩)
            witnessCreators).failed = witnessCreators.length ∧
      (scrape_creators_batch witnessScrapeO witnessCreators).length =
        witnessCreators.length ∧
      (scrape_creators_batch witnessScrapeO witnessCreators)[1]? =
        some ⟨false, "none", some "boom"⟩ :=
  C2_batch_outcome_per_candidate (fun _ => .ok ⟨true, none⟩) witnessScrapeO
    witnessCreators 1 (by decide) "boom" (by rfl)

end CreatorScraper
